import Mathlib

/-!
Verification of the blood-bank ledger engine.

The source is a small Python program (two near-identical variants) built
around a persisted JSON document with four top-level collections:
`inventory` (blood-type code → quantity in ml), `donors`, `patients`
(append-only transaction records) and `logs` (timestamped audit entries).
The embedding below models the document directly; Python's wall clock
(`datetime.now()`) is modelled by passing the rendered timestamp string as
an explicit parameter to each operation that logs or dates a record.

A Python `dict` preserves insertion order, assignment to an existing key
updates its value in place, and assignment to a fresh key appends it at the
end; `Dict` below is an association list with exactly those semantics.
-/

namespace BloodBank

/-- `Inventory.VALID_TYPES`: the eight valid blood-type codes. -/
def VALID_TYPES : List String :=
  ["A+", "A-", "B+", "B-", "AB+", "AB-", "O+", "O-"]

/-- A Python `dict` from blood-type code to integer quantity, as an
insertion-ordered association list. -/
abbrev Dict := List (String × Int)

/-- `dict.get(k, dflt)`: value of the first entry with key `k`, else `dflt`. -/
def dictGet : Dict → String → Int → Int
  | [], _, dflt => dflt
  | p :: rest, k, dflt => if p.1 == k then p.2 else dictGet rest k dflt

/-- `k in dict`: whether some entry has key `k`. -/
def dictHas : Dict → String → Bool
  | [], _ => false
  | p :: rest, k => p.1 == k || dictHas rest k

/-- `dict[k] = v`: update the entry with key `k` in place, or append a new
entry at the end (Python dict assignment semantics; keys are unique in any
dict produced by the program, so updating the first occurrence is exact). -/
def dictSet : Dict → String → Int → Dict
  | [], k, v => [(k, v)]
  | p :: rest, k, v => if p.1 == k then (k, v) :: rest else p :: dictSet rest k v

/-- A donation record as built by the donation flows. -/
structure DonorRec where
  name : String
  email : String
  age : Int
  id : Int
  phone : String
  donated_amount : Int
  blood_type : String
  donation_date : String
deriving Repr, DecidableEq

/-- A request record as built by `Patient.request_blood` / the request page. -/
structure PatientRec where
  name : String
  email : String
  age : Int
  id : Int
  phone : String
  required_amount : Int
  blood_type : String
  request_date : String
deriving Repr, DecidableEq

/-- The persisted document after `ensure_structure`: all four top-level
collections present (every execution path constructs the database through
`load`, which ends in `ensure_structure`). -/
structure Doc where
  inventory : Dict
  donors : List DonorRec
  patients : List PatientRec
  logs : List String
deriving Repr, DecidableEq

/-- The raw persisted document, in which any of the four top-level keys may
still be missing (`none`). -/
structure RawDoc where
  inventory : Option Dict
  donors : Option (List DonorRec)
  patients : Option (List PatientRec)
  logs : Option (List String)
deriving Repr, DecidableEq

/-- The default inventory written by `ensure_structure` on first creation. -/
def defaultInventory : Dict :=
  [("A+", 2000), ("A-", 2000), ("B+", 2000), ("B-", 2000),
   ("AB+", 2000), ("AB-", 2000), ("O+", 2000), ("O-", 2000)]

/-- `Database.ensure_structure`: fill each missing top-level key with its
default; existing keys are left untouched. (The `changed`/`save` bookkeeping
only persists the document and does not alter its contents.) -/
def ensure_structure (d : RawDoc) : RawDoc :=
  let d1 := if d.inventory.isNone then { d with inventory := some defaultInventory } else d
  let d2 := if d1.donors.isNone then { d1 with donors := some [] } else d1
  let d3 := if d2.patients.isNone then { d2 with patients := some [] } else d2
  if d3.logs.isNone then { d3 with logs := some [] } else d3

/-- `self.data = {}`: the empty document. -/
def emptyRaw : RawDoc := ⟨none, none, none, none⟩

/-- What `Database.load` finds at `self.path`: no file, a file whose contents
raise `json.JSONDecodeError`, or a parsed document. -/
inductive FileContent where
  | absent
  | unparseable
  | parsed (d : RawDoc)
deriving DecidableEq

/-- `Database.load`: absent file → empty document; unparseable file → empty
document (the `except` branch); parsed file → its document. In every case
`ensure_structure` runs last. -/
def Database.load (f : FileContent) : RawDoc :=
  match f with
  | .absent => ensure_structure emptyRaw
  | .unparseable => ensure_structure emptyRaw
  | .parsed d => ensure_structure d

/-- `Database.log`: append `"<timestamp> - <entry>"` to `logs` (and save).
`ts` is the rendered `datetime.now().isoformat(sep=" ", timespec="seconds")`. -/
def Database.log (ts : String) (d : Doc) (entry : String) : Doc :=
  { d with logs := d.logs ++ [ts ++ " - " ++ entry] }

/-- `Inventory.get_amount`: current quantity of `btype`, `0` if absent. -/
def get_amount (d : Doc) (btype : String) : Int :=
  dictGet d.inventory btype 0

/-- `Inventory.add_blood`: reject invalid type or non-positive amount,
otherwise increase the stored quantity, save, and log the new total. -/
def add_blood (ts : String) (d : Doc) (btype : String) (amount : Int) : Doc × Bool :=
  if btype ∉ VALID_TYPES ∨ amount ≤ 0 then
    (d, false)
  else
    let inv1 := dictSet d.inventory btype (dictGet d.inventory btype 0 + amount)
    let d1 := { d with inventory := inv1 }
    (Database.log ts d1
      ("Added " ++ toString amount ++ "ml to " ++ btype ++
        " (new: " ++ toString (dictGet inv1 btype 0) ++ " ml)"), true)

/-- `Inventory.remove_blood`: reject invalid type, non-positive amount, or
amount above the current quantity; otherwise decrease, save, and log. -/
def remove_blood (ts : String) (d : Doc) (btype : String) (amount : Int) : Doc × Bool :=
  if btype ∉ VALID_TYPES ∨ amount ≤ 0 then
    (d, false)
  else
    let current := dictGet d.inventory btype 0
    if amount > current then
      (d, false)
    else
      let inv1 := dictSet d.inventory btype (current - amount)
      let d1 := { d with inventory := inv1 }
      (Database.log ts d1
        ("Removed " ++ toString amount ++ "ml from " ++ btype ++
          " (remaining: " ++ toString (dictGet inv1 btype 0) ++ " ml)"), true)

/-- Zero-pad a rendered integer to width `w` (Python `f"{n:0wd}"` for the
non-negative values the forms supply). -/
def pad (w : Nat) (n : Int) : String :=
  let s := toString n
  if s.length < w then String.mk (List.replicate (w - s.length) '0') ++ s else s

/-- The fields of the Donor Registration form. -/
structure DonorForm where
  donor_name : String
  donor_email : String
  donor_age : Int
  donor_id : Int
  donor_phone : String
  donation_amount : Int
  blood_type : String
  donation_day : Int
  donation_month : Int
  donation_year : Int
deriving Repr, DecidableEq

/-- The `donor_rec` dictionary built on a successful donation. -/
def donorRecOf (f : DonorForm) : DonorRec :=
  { name := f.donor_name, email := f.donor_email, age := f.donor_age,
    id := f.donor_id, phone := f.donor_phone,
    donated_amount := f.donation_amount, blood_type := f.blood_type,
    donation_date :=
      pad 4 f.donation_year ++ "-" ++ pad 2 f.donation_month ++ "-" ++ pad 2 f.donation_day }

/-- The Donor Registration "Complete Donation" handler: if name and email are
non-empty (Python truthiness), call `add_blood`; only on its success append
the donation record and save. Returns whether a donation was recorded. -/
def complete_donation (ts : String) (d : Doc) (f : DonorForm) : Doc × Bool :=
  if f.donor_name ≠ "" ∧ f.donor_email ≠ "" then
    let r := add_blood ts d f.blood_type f.donation_amount
    if r.2 then
      ({ r.1 with donors := r.1.donors ++ [donorRecOf f] }, true)
    else
      (r.1, false)
  else
    (d, false)

/-- The fields of a patient request. -/
structure PatientForm where
  name : String
  email : String
  age : Int
  id : Int
  phone : String
  required_amount : Int
  blood_type : String
deriving Repr, DecidableEq

/-- The `rec` dictionary built on a fulfilled request; `today` is the
rendered `datetime.now().strftime("%Y-%m-%d")`. -/
def patientRecOf (today : String) (f : PatientForm) : PatientRec :=
  { name := f.name, email := f.email, age := f.age, id := f.id,
    phone := f.phone, required_amount := f.required_amount,
    blood_type := f.blood_type, request_date := today }

/-- `Patient.request_blood`: call `remove_blood`; only on its success append
the request record and save. Returns the debit's success. -/
def request_blood (ts today : String) (d : Doc) (f : PatientForm) : Doc × Bool :=
  let r := remove_blood ts d f.blood_type f.required_amount
  if r.2 then
    ({ r.1 with patients := r.1.patients ++ [patientRecOf today f] }, true)
  else
    (r.1, false)

/-- The freshly defaulted document: `load` on an absent or corrupt file. -/
def defaultDoc : Doc :=
  { inventory := defaultInventory, donors := [], patients := [], logs := [] }

/-- One credit or debit operation applied to the document. -/
inductive Step : Doc → Doc → Prop where
  | add (ts btype : String) (amount : Int) (d : Doc) :
      Step d (add_blood ts d btype amount).1
  | remove (ts btype : String) (amount : Int) (d : Doc) :
      Step d (remove_blood ts d btype amount).1

/-- Documents reachable from the freshly defaulted document by credits and
debits. -/
inductive Reachable : Doc → Prop where
  | base : Reachable defaultDoc
  | step {d d' : Doc} : Reachable d → Step d d' → Reachable d'

/-- The inventory invariant: all eight blood-type keys present and every
stored quantity non-negative. -/
def InventoryOK (d : Doc) : Prop :=
  (∀ bt ∈ VALID_TYPES, dictHas d.inventory bt = true) ∧
  (∀ p ∈ d.inventory, 0 ≤ p.2)

end BloodBank
namespace BloodBank

theorem dictGet_dictSet_self (l : Dict) (k : String) (v : Int) (dflt : Int) :
    dictGet (dictSet l k v) k dflt = v := by
  induction l with
  | nil => simp [dictSet, dictGet]
  | cons p rest ih =>
    by_cases h : p.1 == k
    · simp [dictSet, dictGet, h]
    · simp [dictSet, dictGet, h, ih]

theorem dictGet_dictSet_ne (l : Dict) (k k' : String) (v : Int) (dflt : Int)
    (h : k' ≠ k) : dictGet (dictSet l k v) k' dflt = dictGet l k' dflt := by
  induction l with
  | nil =>
    simp [dictSet, dictGet]
    intro hk
    exact absurd hk.symm h
  | cons p rest ih =>
    by_cases hp : p.1 == k
    · have hp' : p.1 = k := by simpa using hp
      simp [dictSet, dictGet, hp, hp', h, Ne.symm h]
    · simp [dictSet, dictGet, hp, ih]

theorem dictHas_dictSet_of (l : Dict) (k k' : String) (v : Int)
    (h : dictHas l k' = true) : dictHas (dictSet l k v) k' = true := by
  induction l with
  | nil => simp [dictHas] at h
  | cons p rest ih =>
    simp only [dictHas, Bool.or_eq_true] at h
    by_cases hp : p.1 == k
    · have hp' : p.1 = k := by simpa using hp
      simp only [dictSet, hp, if_true, dictHas, Bool.or_eq_true]
      rcases h with h | h
      · have hk' : p.1 = k' := by simpa using h
        left
        simp [← hp', hk']
      · right; exact h
    · simp only [dictSet, hp, Bool.false_eq_true, if_false, dictHas, Bool.or_eq_true]
      rcases h with h | h
      · left; exact h
      · right; exact ih h

theorem mem_dictSet (l : Dict) (k : String) (v : Int) (p : String × Int)
    (h : p ∈ dictSet l k v) : p ∈ l ∨ p = (k, v) := by
  induction l with
  | nil => simp [dictSet] at h; simp [h]
  | cons q rest ih =>
    by_cases hq : q.1 == k
    · simp [dictSet, hq] at h
      rcases h with h | h
      · right; simp [h]
      · left; simp [h]
    · simp [dictSet, hq] at h
      rcases h with h | h
      · left; simp [h]
      · rcases ih h with h' | h'
        · left; simp [h']
        · right; exact h'

theorem dictGet_nonneg (l : Dict) (k : String)
    (h : ∀ p ∈ l, 0 ≤ p.2) : 0 ≤ dictGet l k 0 := by
  induction l with
  | nil => simp [dictGet]
  | cons p rest ih =>
    by_cases hp : p.1 == k
    · simpa [dictGet, hp] using h p (by simp)
    · simp only [dictGet, hp, Bool.false_eq_true, if_false]
      exact ih fun q hq => h q (by simp [hq])

theorem dictSet_dictSet (l : Dict) (k : String) (v w : Int) :
    dictSet (dictSet l k v) k w = dictSet l k w := by
  induction l with
  | nil => simp [dictSet]
  | cons p rest ih =>
    by_cases hp : p.1 == k
    · simp [dictSet, hp]
    · simp [dictSet, hp, ih]

theorem dictSet_get_self (l : Dict) (k : String)
    (h : dictHas l k = true) : dictSet l k (dictGet l k 0) = l := by
  induction l with
  | nil => simp [dictHas] at h
  | cons p rest ih =>
    by_cases hp : p.1 == k
    · have hp' : p.1 = k := by simpa using hp
      simp [dictSet, dictGet, hp, ← hp']
    · simp [dictHas, hp] at h
      simp [dictSet, dictGet, hp, ih h]

end BloodBank
namespace BloodBank

theorem add_blood_of_invalid (ts : String) (d : Doc) (bt : String) (amt : Int)
    (h : bt ∉ VALID_TYPES ∨ amt ≤ 0) : add_blood ts d bt amt = (d, false) := by
  unfold add_blood
  rw [if_pos h]

theorem add_blood_of_valid (ts : String) (d : Doc) (bt : String) (amt : Int)
    (h1 : bt ∈ VALID_TYPES) (h2 : 0 < amt) :
    add_blood ts d bt amt =
      ({ d with
          inventory := dictSet d.inventory bt (dictGet d.inventory bt 0 + amt),
          logs := d.logs ++ [ts ++ " - " ++
            ("Added " ++ toString amt ++ "ml to " ++ bt ++ " (new: " ++
              toString (dictGet (dictSet d.inventory bt (dictGet d.inventory bt 0 + amt)) bt 0) ++
              " ml)")] }, true) := by
  have hcond : ¬(bt ∉ VALID_TYPES ∨ amt ≤ 0) := by
    push_neg
    exact ⟨h1, h2⟩
  unfold add_blood
  rw [if_neg hcond]
  rfl

theorem remove_blood_of_invalid (ts : String) (d : Doc) (bt : String) (amt : Int)
    (h : bt ∉ VALID_TYPES ∨ amt ≤ 0) : remove_blood ts d bt amt = (d, false) := by
  unfold remove_blood
  rw [if_pos h]

theorem remove_blood_of_insufficient (ts : String) (d : Doc) (bt : String) (amt : Int)
    (h1 : bt ∈ VALID_TYPES) (h2 : 0 < amt) (h3 : dictGet d.inventory bt 0 < amt) :
    remove_blood ts d bt amt = (d, false) := by
  have hcond : ¬(bt ∉ VALID_TYPES ∨ amt ≤ 0) := by
    push_neg
    exact ⟨h1, h2⟩
  unfold remove_blood
  rw [if_neg hcond]
  simp only []
  rw [if_pos h3]

theorem remove_blood_of_ok (ts : String) (d : Doc) (bt : String) (amt : Int)
    (h1 : bt ∈ VALID_TYPES) (h2 : 0 < amt) (h3 : amt ≤ dictGet d.inventory bt 0) :
    remove_blood ts d bt amt =
      ({ d with
          inventory := dictSet d.inventory bt (dictGet d.inventory bt 0 - amt),
          logs := d.logs ++ [ts ++ " - " ++
            ("Removed " ++ toString amt ++ "ml from " ++ bt ++ " (remaining: " ++
              toString (dictGet (dictSet d.inventory bt (dictGet d.inventory bt 0 - amt)) bt 0) ++
              " ml)")] }, true) := by
  have hcond : ¬(bt ∉ VALID_TYPES ∨ amt ≤ 0) := by
    push_neg
    exact ⟨h1, h2⟩
  unfold remove_blood
  rw [if_neg hcond]
  simp only []
  rw [if_neg (not_lt.mpr h3)]
  rfl

end BloodBank
namespace BloodBank

theorem not_valid_pos {bt : String} {amt : Int} (h : ¬(bt ∈ VALID_TYPES ∧ 0 < amt)) :
    bt ∉ VALID_TYPES ∨ amt ≤ 0 := by
  rcases not_and_or.mp h with h | h
  · exact Or.inl h
  · exact Or.inr (not_lt.mp h)

theorem remove_blood_tri (d : Doc) (bt : String) (amt : Int) :
    (bt ∉ VALID_TYPES ∨ amt ≤ 0) ∨
    ((bt ∈ VALID_TYPES ∧ 0 < amt) ∧ dictGet d.inventory bt 0 < amt) ∨
    ((bt ∈ VALID_TYPES ∧ 0 < amt) ∧ amt ≤ dictGet d.inventory bt 0) := by
  by_cases h : bt ∈ VALID_TYPES ∧ 0 < amt
  · by_cases h3 : amt ≤ dictGet d.inventory bt 0
    · exact Or.inr (Or.inr ⟨h, h3⟩)
    · exact Or.inr (Or.inl ⟨h, not_le.mp h3⟩)
  · exact Or.inl (not_valid_pos h)

theorem add_blood_succ_iff (ts : String) (d : Doc) (bt : String) (amt : Int) :
    (add_blood ts d bt amt).2 = true ↔ bt ∈ VALID_TYPES ∧ 0 < amt := by
  by_cases h : bt ∈ VALID_TYPES ∧ 0 < amt
  · rw [add_blood_of_valid ts d bt amt h.1 h.2]
    simpa using h
  · rw [add_blood_of_invalid ts d bt amt (not_valid_pos h)]
    simpa using h

theorem remove_blood_succ_iff (ts : String) (d : Doc) (bt : String) (amt : Int) :
    (remove_blood ts d bt amt).2 = true ↔
      bt ∈ VALID_TYPES ∧ 0 < amt ∧ amt ≤ get_amount d bt := by
  rcases remove_blood_tri d bt amt with h | h | h
  · rw [remove_blood_of_invalid ts d bt amt h]
    simp only [Bool.false_eq_true, false_iff]
    rintro ⟨hv, hpos, hle⟩
    rcases h with h | h
    · exact h hv
    · exact absurd hpos (not_lt.mpr h)
  · rw [remove_blood_of_insufficient ts d bt amt h.1.1 h.1.2 h.2]
    simp only [Bool.false_eq_true, false_iff]
    rintro ⟨hv, hpos, hle⟩
    exact absurd hle (not_le.mpr h.2)
  · rw [remove_blood_of_ok ts d bt amt h.1.1 h.1.2 h.2]
    simpa [get_amount] using ⟨h.1.1, h.1.2, h.2⟩

theorem add_blood_donors (ts : String) (d : Doc) (bt : String) (amt : Int) :
    (add_blood ts d bt amt).1.donors = d.donors := by
  by_cases h : bt ∈ VALID_TYPES ∧ 0 < amt
  · rw [add_blood_of_valid ts d bt amt h.1 h.2]
  · rw [add_blood_of_invalid ts d bt amt (not_valid_pos h)]

theorem add_blood_patients (ts : String) (d : Doc) (bt : String) (amt : Int) :
    (add_blood ts d bt amt).1.patients = d.patients := by
  by_cases h : bt ∈ VALID_TYPES ∧ 0 < amt
  · rw [add_blood_of_valid ts d bt amt h.1 h.2]
  · rw [add_blood_of_invalid ts d bt amt (not_valid_pos h)]

theorem remove_blood_donors (ts : String) (d : Doc) (bt : String) (amt : Int) :
    (remove_blood ts d bt amt).1.donors = d.donors := by
  rcases remove_blood_tri d bt amt with h | h | h
  · rw [remove_blood_of_invalid ts d bt amt h]
  · rw [remove_blood_of_insufficient ts d bt amt h.1.1 h.1.2 h.2]
  · rw [remove_blood_of_ok ts d bt amt h.1.1 h.1.2 h.2]

theorem remove_blood_patients (ts : String) (d : Doc) (bt : String) (amt : Int) :
    (remove_blood ts d bt amt).1.patients = d.patients := by
  rcases remove_blood_tri d bt amt with h | h | h
  · rw [remove_blood_of_invalid ts d bt amt h]
  · rw [remove_blood_of_insufficient ts d bt amt h.1.1 h.1.2 h.2]
  · rw [remove_blood_of_ok ts d bt amt h.1.1 h.1.2 h.2]

theorem ensure_structure_fields (d : RawDoc) :
    (ensure_structure d).inventory = some (d.inventory.getD defaultInventory)
    ∧ (ensure_structure d).donors = some (d.donors.getD [])
    ∧ (ensure_structure d).patients = some (d.patients.getD [])
    ∧ (ensure_structure d).logs = some (d.logs.getD []) := by
  rcases d with ⟨i, dn, pa, lo⟩
  cases i <;> cases dn <;> cases pa <;> cases lo <;> exact ⟨rfl, rfl, rfl, rfl⟩

end BloodBank
namespace BloodBank

/-- C2 counterexample: with amount 0 on the freshly defaulted document,
`remove_blood "A+" 0` fails even though 0 ≤ current quantity (2000), so
"debit succeeds iff amount ≤ current quantity" is false as stated. -/
theorem debit_iff_counterexample :
    ¬(((remove_blood "2025-01-01 00:00:00" defaultDoc "A+" 0).2 = true) ↔
      (0 : Int) ≤ get_amount defaultDoc "A+") := by
  decide

/-- C2 (amended): `remove_blood` succeeds iff the type is one of the 8 valid
codes, the amount is positive, and the amount is at most the current
quantity; on success the quantity decreases by exactly the amount; on
failure the whole document is unchanged. -/
theorem remove_blood_spec (ts : String) (d : Doc) (bt : String) (amt : Int) :
    ((remove_blood ts d bt amt).2 = true ↔
        bt ∈ VALID_TYPES ∧ 0 < amt ∧ amt ≤ get_amount d bt)
    ∧ (get_amount (remove_blood ts d bt amt).1 bt =
        if (remove_blood ts d bt amt).2 then get_amount d bt - amt else get_amount d bt)
    ∧ ((remove_blood ts d bt amt).1 =
        if (remove_blood ts d bt amt).2 then (remove_blood ts d bt amt).1 else d) := by
  refine ⟨remove_blood_succ_iff ts d bt amt, ?_, ?_⟩
  · rcases remove_blood_tri d bt amt with h | h | h
    · rw [remove_blood_of_invalid ts d bt amt h]
      simp
    · rw [remove_blood_of_insufficient ts d bt amt h.1.1 h.1.2 h.2]
      simp
    · rw [remove_blood_of_ok ts d bt amt h.1.1 h.1.2 h.2]
      simp [get_amount, dictGet_dictSet_self]
  · rcases remove_blood_tri d bt amt with h | h | h
    · rw [remove_blood_of_invalid ts d bt amt h]
      simp
    · rw [remove_blood_of_insufficient ts d bt amt h.1.1 h.1.2 h.2]
      simp
    · rw [remove_blood_of_ok ts d bt amt h.1.1 h.1.2 h.2]
      simp

/-- C3: for a blood-type code outside the 8 valid ones, or a non-positive
amount, both `add_blood` and `remove_blood` return failure and leave the
entire document (inventory, donors, patients, logs) unchanged. -/
theorem invalid_input_no_change (ts : String) (d : Doc) (bt : String) (amt : Int)
    (h : bt ∉ VALID_TYPES ∨ amt ≤ 0) :
    add_blood ts d bt amt = (d, false) ∧ remove_blood ts d bt amt = (d, false) :=
  ⟨add_blood_of_invalid ts d bt amt h, remove_blood_of_invalid ts d bt amt h⟩

/-- C3 witness: concrete invalid code "XX" with amount 100 on the defaulted
document. -/
theorem invalid_input_no_change_witness :
    add_blood "2025-01-01 00:00:00" defaultDoc "XX" 100 = (defaultDoc, false) ∧
    remove_blood "2025-01-01 00:00:00" defaultDoc "XX" 100 = (defaultDoc, false) :=
  invalid_input_no_change "2025-01-01 00:00:00" defaultDoc "XX" 100 (Or.inl (by decide))

/-- C7: a successful `add_blood` appends exactly one log entry
"<timestamp> - Added <amt>ml to <type> (new: <total> ml)" with <total> the
post-credit quantity; a successful `remove_blood` appends exactly one entry
"<timestamp> - Removed <amt>ml from <type> (remaining: <total> ml)"; failed
operations append no entry. -/
theorem log_entry_shape (ts : String) (d : Doc) (bt : String) (amt : Int) :
    ((add_blood ts d bt amt).1.logs =
      if (add_blood ts d bt amt).2 then
        d.logs ++ [ts ++ " - " ++
          ("Added " ++ toString amt ++ "ml to " ++ bt ++ " (new: " ++
            toString (get_amount (add_blood ts d bt amt).1 bt) ++ " ml)")]
      else d.logs)
    ∧ ((remove_blood ts d bt amt).1.logs =
      if (remove_blood ts d bt amt).2 then
        d.logs ++ [ts ++ " - " ++
          ("Removed " ++ toString amt ++ "ml from " ++ bt ++ " (remaining: " ++
            toString (get_amount (remove_blood ts d bt amt).1 bt) ++ " ml)")]
      else d.logs)
    := by
  constructor
  · by_cases h : bt ∈ VALID_TYPES ∧ 0 < amt
    · rw [add_blood_of_valid ts d bt amt h.1 h.2]
      simp [get_amount]
    · rw [add_blood_of_invalid ts d bt amt (not_valid_pos h)]
      simp
  · rcases remove_blood_tri d bt amt with h | h | h
    · rw [remove_blood_of_invalid ts d bt amt h]
      simp
    · rw [remove_blood_of_insufficient ts d bt amt h.1.1 h.1.2 h.2]
      simp
    · rw [remove_blood_of_ok ts d bt amt h.1.1 h.1.2 h.2]
      simp [get_amount]

/-- C10: `add_blood` and `remove_blood` touch at most the inventory entry of
the given blood type and append at most one entry to logs; donors, patients,
and every other blood type's quantity are unchanged. -/
theorem frame_effect (ts : String) (d : Doc) (bt : String) (amt : Int) :
    ((add_blood ts d bt amt).1.donors = d.donors)
    ∧ ((add_blood ts d bt amt).1.patients = d.patients)
    ∧ (∀ k : String, k = bt ∨ get_amount (add_blood ts d bt amt).1 k = get_amount d k)
    ∧ (∃ l, (add_blood ts d bt amt).1.logs = d.logs ++ l ∧ l.length ≤ 1)
    ∧ ((remove_blood ts d bt amt).1.donors = d.donors)
    ∧ ((remove_blood ts d bt amt).1.patients = d.patients)
    ∧ (∀ k : String, k = bt ∨ get_amount (remove_blood ts d bt amt).1 k = get_amount d k)
    ∧ (∃ l, (remove_blood ts d bt amt).1.logs = d.logs ++ l ∧ l.length ≤ 1) := by
  refine ⟨add_blood_donors ts d bt amt, add_blood_patients ts d bt amt, ?_, ?_,
    remove_blood_donors ts d bt amt, remove_blood_patients ts d bt amt, ?_, ?_⟩
  · intro k
    by_cases hk : k = bt
    · exact Or.inl hk
    · refine Or.inr ?_
      by_cases h : bt ∈ VALID_TYPES ∧ 0 < amt
      · rw [add_blood_of_valid ts d bt amt h.1 h.2]
        simp [get_amount, dictGet_dictSet_ne _ _ _ _ _ hk]
      · rw [add_blood_of_invalid ts d bt amt (not_valid_pos h)]
  · by_cases h : bt ∈ VALID_TYPES ∧ 0 < amt
    · rw [add_blood_of_valid ts d bt amt h.1 h.2]
      exact ⟨_, rfl, by simp⟩
    · rw [add_blood_of_invalid ts d bt amt (not_valid_pos h)]
      exact ⟨[], by simp, by simp⟩
  · intro k
    by_cases hk : k = bt
    · exact Or.inl hk
    · refine Or.inr ?_
      rcases remove_blood_tri d bt amt with h | h | h
      · rw [remove_blood_of_invalid ts d bt amt h]
      · rw [remove_blood_of_insufficient ts d bt amt h.1.1 h.1.2 h.2]
      · rw [remove_blood_of_ok ts d bt amt h.1.1 h.1.2 h.2]
        simp [get_amount, dictGet_dictSet_ne _ _ _ _ _ hk]
  · rcases remove_blood_tri d bt amt with h | h | h
    · rw [remove_blood_of_invalid ts d bt amt h]
      exact ⟨[], by simp, by simp⟩
    · rw [remove_blood_of_insufficient ts d bt amt h.1.1 h.1.2 h.2]
      exact ⟨[], by simp, by simp⟩
    · rw [remove_blood_of_ok ts d bt amt h.1.1 h.1.2 h.2]
      exact ⟨_, rfl, by simp⟩

end BloodBank
namespace BloodBank

/-- C6: for a valid blood type whose key is stored with a non-negative
quantity, crediting then debiting the same positive amount succeeds on the
debit and returns the inventory to its prior value. -/
theorem credit_debit_roundtrip (ts1 ts2 : String) (d : Doc) (bt : String) (amt : Int)
    (h1 : bt ∈ VALID_TYPES) (h2 : 0 < amt)
    (hkey : dictHas d.inventory bt = true) (hnn : 0 ≤ get_amount d bt) :
    (remove_blood ts2 (add_blood ts1 d bt amt).1 bt amt).2 = true ∧
    (remove_blood ts2 (add_blood ts1 d bt amt).1 bt amt).1.inventory = d.inventory := by
  rw [add_blood_of_valid ts1 d bt amt h1 h2]
  set d1 : Doc :=
    { d with
        inventory := dictSet d.inventory bt (dictGet d.inventory bt 0 + amt),
        logs := d.logs ++ [ts1 ++ " - " ++
          ("Added " ++ toString amt ++ "ml to " ++ bt ++ " (new: " ++
            toString (dictGet (dictSet d.inventory bt (dictGet d.inventory bt 0 + amt)) bt 0) ++
            " ml)")] } with hd1
  have hget : dictGet d1.inventory bt 0 = dictGet d.inventory bt 0 + amt := by
    rw [hd1]
    exact dictGet_dictSet_self _ _ _ _
  have h3 : amt ≤ dictGet d1.inventory bt 0 := by
    rw [hget]
    have : 0 ≤ dictGet d.inventory bt 0 := hnn
    linarith
  rw [remove_blood_of_ok ts2 d1 bt amt h1 h2 h3]
  refine ⟨rfl, ?_⟩
  show dictSet d1.inventory bt (dictGet d1.inventory bt 0 - amt) = d.inventory
  rw [hget, hd1]
  simp only []
  rw [dictSet_dictSet]
  have : dictGet d.inventory bt 0 + amt - amt = dictGet d.inventory bt 0 := by ring
  rw [this]
  exact dictSet_get_self _ _ hkey

/-- C6 witness: credit then debit of 100 ml of A+ on the defaulted document. -/
theorem credit_debit_roundtrip_witness :
    (remove_blood "t2" (add_blood "t1" defaultDoc "A+" 100).1 "A+" 100).2 = true ∧
    (remove_blood "t2" (add_blood "t1" defaultDoc "A+" 100).1 "A+" 100).1.inventory =
      defaultDoc.inventory :=
  credit_debit_roundtrip "t1" "t2" defaultDoc "A+" 100
    (by decide) (by decide) (by decide) (by decide)

end BloodBank
namespace BloodBank

/-- C1: in the donation flow the donor record is appended iff the guarded
`add_blood` call succeeded, and the flow reports success exactly then; in
the request flow the patient record is appended iff `remove_blood`
succeeded, and the flow returns exactly that success. -/
theorem transaction_record_iff (ts today : String) (d : Doc) (f : DonorForm) (g : PatientForm) :
    ((complete_donation ts d f).1.donors =
      if f.donor_name ≠ "" ∧ f.donor_email ≠ "" ∧
          (add_blood ts d f.blood_type f.donation_amount).2 = true
      then d.donors ++ [donorRecOf f] else d.donors)
    ∧ ((complete_donation ts d f).2 = true ↔
        f.donor_name ≠ "" ∧ f.donor_email ≠ "" ∧
          (add_blood ts d f.blood_type f.donation_amount).2 = true)
    ∧ ((request_blood ts today d g).1.patients =
      if (remove_blood ts d g.blood_type g.required_amount).2
      then d.patients ++ [patientRecOf today g] else d.patients)
    ∧ ((request_blood ts today d g).2 =
        (remove_blood ts d g.blood_type g.required_amount).2) := by
  have hdon : ∀ b : Bool, (add_blood ts d f.blood_type f.donation_amount).2 = b →
      (complete_donation ts d f).1.donors =
        (if f.donor_name ≠ "" ∧ f.donor_email ≠ "" ∧ b = true
         then d.donors ++ [donorRecOf f] else d.donors) ∧
      ((complete_donation ts d f).2 = true ↔
        f.donor_name ≠ "" ∧ f.donor_email ≠ "" ∧ b = true) := by
    intro b hb
    by_cases hg : f.donor_name ≠ "" ∧ f.donor_email ≠ ""
    · cases b with
      | true =>
        simp [complete_donation, if_pos hg, hb, hg, add_blood_donors]
      | false =>
        simp [complete_donation, if_pos hg, hb, add_blood_donors]
    · simp only [complete_donation, if_neg hg]
      constructor
      · rw [if_neg (by tauto)]
      · simp only [Bool.false_eq_true, false_iff]
        intro hc
        exact hg ⟨hc.1, hc.2.1⟩
  have hreq : ∀ b : Bool, (remove_blood ts d g.blood_type g.required_amount).2 = b →
      (request_blood ts today d g).1.patients =
        (if b = true then d.patients ++ [patientRecOf today g] else d.patients) ∧
      (request_blood ts today d g).2 = b := by
    intro b hb
    cases b with
    | true =>
      simp only [request_blood, hb]
      constructor
      · simp [remove_blood_patients]
      · simp
    | false =>
      simp only [request_blood, hb]
      constructor
      · simp [remove_blood_patients]
      · simp
  obtain ⟨h1, h2⟩ := hdon _ rfl
  obtain ⟨h3, h4⟩ := hreq _ rfl
  exact ⟨h1, h2, by simpa using h3, h4⟩

end BloodBank
namespace BloodBank

/-- C5: on the empty document `ensure_structure` installs the default
inventory (all 8 codes at 2000 ml) and empty donors/patients/logs; on any
document it is idempotent and each field is filled exactly when missing,
never overwriting existing data. -/
theorem ensure_structure_spec :
    (ensure_structure emptyRaw =
      { inventory := some defaultInventory, donors := some [],
        patients := some [], logs := some [] })
    ∧ ((VALID_TYPES.all fun bt =>
          dictHas ((ensure_structure emptyRaw).inventory.getD []) bt &&
            (dictGet ((ensure_structure emptyRaw).inventory.getD []) bt 0 == 2000)) = true)
    ∧ (∀ d : RawDoc, ensure_structure (ensure_structure d) = ensure_structure d)
    ∧ (∀ d : RawDoc,
        (ensure_structure d).inventory = some (d.inventory.getD defaultInventory)
        ∧ (ensure_structure d).donors = some (d.donors.getD [])
        ∧ (ensure_structure d).patients = some (d.patients.getD [])
        ∧ (ensure_structure d).logs = some (d.logs.getD [])) := by
  refine ⟨rfl, by decide, ?_, ensure_structure_fields⟩
  intro d
  rcases d with ⟨i, dn, pa, lo⟩
  cases i <;> cases dn <;> cases pa <;> cases lo <;> rfl

/-- C8: `load` on an absent file yields the defaulted empty document, an
unparseable file is treated exactly like an absent one, and every loaded
document has all four top-level collections present. -/
theorem load_recovers (f : FileContent) :
    (Database.load .absent = ensure_structure emptyRaw)
    ∧ (Database.load .unparseable = Database.load .absent)
    ∧ ((Database.load f).inventory.isSome = true
       ∧ (Database.load f).donors.isSome = true
       ∧ (Database.load f).patients.isSome = true
       ∧ (Database.load f).logs.isSome = true) := by
  refine ⟨rfl, rfl, ?_⟩
  have h : ∀ d : RawDoc,
      (ensure_structure d).inventory.isSome = true
      ∧ (ensure_structure d).donors.isSome = true
      ∧ (ensure_structure d).patients.isSome = true
      ∧ (ensure_structure d).logs.isSome = true := by
    intro d
    obtain ⟨h1, h2, h3, h4⟩ := ensure_structure_fields d
    exact ⟨by rw [h1]; rfl, by rw [h2]; rfl, by rw [h3]; rfl, by rw [h4]; rfl⟩
  cases f with
  | absent => exact h emptyRaw
  | unparseable => exact h emptyRaw
  | parsed d => exact h d

theorem step_preserves_InventoryOK {d d' : Doc} (hd : InventoryOK d) (hs : Step d d') :
    InventoryOK d' := by
  obtain ⟨hkeys, hnn⟩ := hd
  cases hs with
  | add ts bt amt d =>
    by_cases h : bt ∈ VALID_TYPES ∧ 0 < amt
    · rw [add_blood_of_valid ts d bt amt h.1 h.2]
      constructor
      · intro bt' hbt'
        exact dictHas_dictSet_of _ _ _ _ (hkeys bt' hbt')
      · intro p hp
        rcases mem_dictSet _ _ _ _ hp with hp' | hp'
        · exact hnn p hp'
        · rw [hp']
          have := dictGet_nonneg d.inventory bt hnn
          have := h.2
          simp only []
          linarith
    · rw [add_blood_of_invalid ts d bt amt (not_valid_pos h)]
      exact ⟨hkeys, hnn⟩
  | remove ts bt amt d =>
    rcases remove_blood_tri d bt amt with h | h | h
    · rw [remove_blood_of_invalid ts d bt amt h]
      exact ⟨hkeys, hnn⟩
    · rw [remove_blood_of_insufficient ts d bt amt h.1.1 h.1.2 h.2]
      exact ⟨hkeys, hnn⟩
    · rw [remove_blood_of_ok ts d bt amt h.1.1 h.1.2 h.2]
      constructor
      · intro bt' hbt'
        exact dictHas_dictSet_of _ _ _ _ (hkeys bt' hbt')
      · intro p hp
        rcases mem_dictSet _ _ _ _ hp with hp' | hp'
        · exact hnn p hp'
        · rw [hp']
          have := h.2
          simp only []
          linarith

/-- C4: every document reachable from the freshly defaulted one by any
sequence of `add_blood`/`remove_blood` operations has all 8 blood-type keys
in its inventory and every stored quantity non-negative. -/
theorem reachable_InventoryOK {d : Doc} (h : Reachable d) : InventoryOK d := by
  induction h with
  | base => exact ⟨by decide, by decide⟩
  | step _ hs ih => exact step_preserves_InventoryOK ih hs

/-- C4 witness: the invariant at the defaulted document after one credit. -/
theorem reachable_InventoryOK_witness :
    InventoryOK (add_blood "t1" defaultDoc "A+" 100).1 :=
  reachable_InventoryOK
    (Reachable.step Reachable.base (Step.add "t1" "A+" 100 defaultDoc))

end BloodBank
